import Mathlib

/-!
Verification of the auto-grading engine of the CBT (computer-based testing)
application, embedded shallowly from `src/services/supabase.ts`.

The grading core is the function family `calculatePoints` /
`gradeMultipleChoice` / `gradeMultipleSelect` / `gradeMatching` /
`gradeShortAnswer`, plus the batch wrapper `gradeSession`.

Modelling choices, matching the JavaScript source:
* Dynamic (possibly `null`/`undefined`) fields become `Option`;
  `x || fallback` becomes an explicit match on `Option` and, for numbers,
  on the falsy value `0`.
* JavaScript numbers used by the scorers are exact fractions, modelled as `ℚ`.
* `String.prototype.toLowerCase` / `trim` are modelled character-wise
  (ASCII case folding, the range the application data uses).
* A code path that throws a `TypeError` (reading a property of
  `null`/`undefined` without a guard) is modelled by returning `none`;
  `some r` means the JavaScript function returns the number `r` normally.
* Student matching answers (a JSON object) are an association list looked up
  with first-match semantics; JSON objects cannot carry duplicate keys.
-/

namespace CBT

/-- ASCII model of JavaScript toLowerCase: map each character of the string
through the core ASCII case folding. -/
def jsToLowerCase (s : String) : String :=
  String.mk (s.data.map Char.toLower)

/-- Whitespace characters removed by the JavaScript trim on the data in use. -/
def jsWhitespaceChar (c : Char) : Bool :=
  c = ' ' || c = '\t' || c = '\n' || c = '\r'

/-- Model of JavaScript trim: drop whitespace from both ends of the string. -/
def jsTrim (s : String) : String :=
  String.mk (((s.data.dropWhile jsWhitespaceChar).reverse.dropWhile jsWhitespaceChar).reverse)

/-- A row of `question_options`: option id (UUID primary key) and the
`is_correct` flag. -/
structure QuestionOption where
  id : String
  is_correct : Bool
deriving DecidableEq

/-- A row of `matching_pairs`: the `left_item` / `right_item` strings. -/
structure MatchingPair where
  left_item : String
  right_item : String
deriving DecidableEq

/-- A row of `short_answer_keys`. The grading code reads `correct_answer`
dynamically, so the field is an `Option` (`none` models a `null` value). -/
structure ShortAnswerKey where
  correct_answer : Option String
  is_case_sensitive : Bool
deriving DecidableEq

/-- The slice of a `questions` row (joined with its option / pair / key
tables) that the grading code reads. -/
structure Question where
  question_type : String
  points : Option Int
  options : Option (List QuestionOption)
  matching_pairs : Option (List MatchingPair)
  short_answer_keys : Option (List ShortAnswerKey)
deriving DecidableEq

/-- The slice of a `student_answers` row (joined with its question) that the
grading code reads. -/
structure Answer where
  question : Option Question
  selected_options : Option (List String)
  matching_answers : Option (List (String × String))
  answer_text : Option String
deriving DecidableEq

/-- The JavaScript expression `question.points || 1`: the stored points,
with `null` / missing / `0` (the falsy values) replaced by `1`. -/
def pointsOrOne (question : Question) : ℚ :=
  match question.points with
  | none => 1
  | some p => if p = 0 then 1 else (p : ℚ)

/-- Embedding of `gradeMultipleChoice`: compare the first selected option id
with the id of the first option flagged `is_correct`. -/
def gradeMultipleChoice (answer : Answer) (question : Question) : ℚ :=
  let selectedOptionId := (answer.selected_options.getD []).head?
  let correctOption := (question.options.getD []).find? (fun opt => opt.is_correct)
  match correctOption with
  | some copt => if selectedOptionId = some copt.id then pointsOrOne question else 0
  | none => 0

/-- Embedding of `gradeMultipleSelect`: partial credit
`max 0 ((correctSelected - incorrectSelected) / n)` times the points. -/
def gradeMultipleSelect (answer : Answer) (question : Question) : ℚ :=
  let selectedIds := answer.selected_options.getD []
  let correctOptions := (question.options.getD []).filter (fun opt => opt.is_correct)
  let correctIds := correctOptions.map (fun opt => opt.id)
  if correctOptions.length = 0 then 0
  else
    let correctSelected := (selectedIds.filter (fun id => correctIds.contains id)).length
    let incorrectSelected := selectedIds.length - correctSelected
    let score := max 0 (((correctSelected : ℚ) - (incorrectSelected : ℚ)) / (correctIds.length : ℚ))
    score * pointsOrOne question

/-- Embedding of `gradeMatching`: fraction of stored pairs that the student
mapping reproduces, times the points. -/
def gradeMatching (answer : Answer) (question : Question) : ℚ :=
  let studentMatches := answer.matching_answers.getD []
  let correctPairs := question.matching_pairs.getD []
  if correctPairs.length = 0 then 0
  else
    let correctCount := correctPairs.foldl
      (fun acc pair => if studentMatches.lookup pair.left_item = some pair.right_item then acc + 1 else acc)
      (0 : ℕ)
    ((correctCount : ℚ) / (correctPairs.length : ℚ)) * pointsOrOne question

/-- The `for (const correct of correctAnswers)` loop of `gradeShortAnswer`.
A key whose `correct_answer` is `null` makes the JavaScript code throw
(`correct.correct_answer.toLowerCase()` on `null`), modelled as `none`. -/
def shortAnswerLoop (studentAnswer : String) (question : Question) :
    List ShortAnswerKey → Option ℚ
  | [] => some 0
  | correct :: rest =>
    match correct.correct_answer with
    | none => none
    | some t =>
      let correctText := jsToLowerCase t
      if correct.is_case_sensitive then
        if studentAnswer = correctText then some (pointsOrOne question)
        else shortAnswerLoop studentAnswer question rest
      else
        if studentAnswer = jsToLowerCase correctText then some (pointsOrOne question)
        else shortAnswerLoop studentAnswer question rest

/-- Embedding of `gradeShortAnswer`: trim and lower-case the student text,
then scan the answer keys in stored order. -/
def gradeShortAnswer (answer : Answer) (question : Question) : Option ℚ :=
  let studentAnswer := jsToLowerCase (jsTrim (answer.answer_text.getD ("")))
  shortAnswerLoop studentAnswer question (question.short_answer_keys.getD [])

/-- Embedding of `calculatePoints`: dispatch on `question_type`; a missing
question reference scores `0`; unknown types (essays included) score `0`. -/
def calculatePoints (answer : Answer) : Option ℚ :=
  match answer.question with
  | none => some 0
  | some question =>
    if question.question_type = "multiple_choice" then some (gradeMultipleChoice answer question)
    else if question.question_type = "multiple_select" then some (gradeMultipleSelect answer question)
    else if question.question_type = "matching" then some (gradeMatching answer question)
    else if question.question_type = "short_answer" then gradeShortAnswer answer question
    else some 0

/-- The record produced by `gradeSession` for one answer row: the row spread
together with `is_auto_graded: true` and the computed `points_awarded`.
The source record carries no other grading fields (in particular no status). -/
structure GradedAnswer where
  answer : Answer
  is_auto_graded : Bool
  points_awarded : ℚ
deriving DecidableEq

/-- Embedding of the grading core of `gradeSession`: map `calculatePoints`
over the answer rows of the session. An exception in any row propagates
(`none`). -/
def gradeSession (answers : List Answer) : Option (List GradedAnswer) :=
  answers.mapM (fun answer =>
    (calculatePoints answer).map (fun pts =>
      { answer := answer, is_auto_graded := true, points_awarded := pts }))

/-! Helper lemmas about the character / string model. -/

theorem toNat_ofNat_valid (n : Nat) (h : n.isValidChar) : (Char.ofNat n).toNat = n := by
  rw [Char.ofNat, dif_pos h]
  rfl

theorem toLower_idem (c : Char) : c.toLower.toLower = c.toLower := by
  unfold Char.toLower
  by_cases h : c.toNat ≥ 65 ∧ c.toNat ≤ 90
  · rw [if_pos h]
    have hv : (c.toNat + 32).isValidChar := Or.inl (by omega)
    have ht : (Char.ofNat (c.toNat + 32)).toNat = c.toNat + 32 := toNat_ofNat_valid _ hv
    rw [if_neg (by omega)]
  · rw [if_neg h, if_neg h]

theorem jsToLowerCase_idem (s : String) : jsToLowerCase (jsToLowerCase s) = jsToLowerCase s :=
  congrArg String.mk (by
    show (s.data.map Char.toLower).map Char.toLower = s.data.map Char.toLower
    rw [List.map_map]
    exact List.map_congr_left (fun c _ => toLower_idem c))

/-! Helper lemmas about `pointsOrOne`. -/

theorem pointsOrOne_eq_points (q : Question) (p : Int) (hp : q.points = some p) (h : p ≠ 0) :
    pointsOrOne q = (p : ℚ) := by
  simp [pointsOrOne, hp, h]

theorem pointsOrOne_eq_one (q : Question) (h : q.points = none ∨ q.points = some 0) :
    pointsOrOne q = 1 := by
  rcases h with h | h <;> simp [pointsOrOne, h]

/-! The short-answer loop depends on a key only through its stored text:
`loopTexts` runs the same scan over the list of key texts alone. -/

/-- The short-answer key scan, reformulated over the list of key texts.
The `is_case_sensitive` flag is gone: both branches of the source compare
the student answer against the lower-cased key text. -/
def loopTexts (studentAnswer : String) (pts : ℚ) : List (Option String) → Option ℚ
  | [] => some 0
  | none :: _ => none
  | some t :: rest =>
    if studentAnswer = jsToLowerCase t then some pts else loopTexts studentAnswer pts rest

theorem shortAnswerLoop_eq_loopTexts (s : String) (q : Question) (keys : List ShortAnswerKey) :
    shortAnswerLoop s q keys = loopTexts s (pointsOrOne q) (keys.map (fun k => k.correct_answer)) := by
  induction keys with
  | nil => rfl
  | cons k rest ih =>
    cases hk : k.correct_answer with
    | none => simp [shortAnswerLoop, loopTexts, hk]
    | some t =>
      by_cases hb : k.is_case_sensitive <;>
        simp [shortAnswerLoop, loopTexts, hk, hb, jsToLowerCase_idem, ih]

theorem loopTexts_all_some (s : String) (pts : ℚ) (texts : List (Option String))
    (h : ∀ o ∈ texts, o ≠ none) :
    loopTexts s pts texts =
      some (if texts.any (fun o => decide (s = jsToLowerCase (o.getD ("")))) then pts else 0) := by
  induction texts with
  | nil => rfl
  | cons o rest ih =>
    cases o with
    | none => exact absurd rfl (h none (List.mem_cons_self _ _))
    | some t =>
      by_cases hc : s = jsToLowerCase t
      · simp [loopTexts, hc]
      · have := ih (fun o ho => h o (List.mem_cons_of_mem _ ho))
        simp [loopTexts, hc, this]

theorem loopTexts_cases (s : String) (pts : ℚ) (texts : List (Option String)) (r : ℚ)
    (h : loopTexts s pts texts = some r) : r = 0 ∨ r = pts := by
  induction texts with
  | nil => exact Or.inl (by simpa [loopTexts] using h.symm)
  | cons o rest ih =>
    cases o with
    | none => simp [loopTexts] at h
    | some t =>
      by_cases hc : s = jsToLowerCase t
      · simp [loopTexts, hc] at h
        exact Or.inr h.symm
      · exact ih (by simpa [loopTexts, hc] using h)

theorem loopTexts_isSome (s : String) (pts : ℚ) (texts : List (Option String))
    (h : ∀ o ∈ texts, o ≠ none) : (loopTexts s pts texts).isSome := by
  rw [loopTexts_all_some s pts texts h]
  rfl

theorem shortAnswerLoop_all_some (s : String) (q : Question) (keys : List ShortAnswerKey)
    (h : ∀ k ∈ keys, k.correct_answer ≠ none) :
    shortAnswerLoop s q keys =
      some (if keys.any (fun k => decide (s = jsToLowerCase (k.correct_answer.getD ("")))) then
        pointsOrOne q else 0) := by
  induction keys with
  | nil => rfl
  | cons k rest ih =>
    cases hk : k.correct_answer with
    | none => exact absurd hk (h k (List.mem_cons_self _ _))
    | some t =>
      have hrest := ih (fun k hk => h k (List.mem_cons_of_mem _ hk))
      by_cases hc : s = jsToLowerCase t
      · by_cases hb : k.is_case_sensitive <;>
          simp [shortAnswerLoop, hk, hb, hc, jsToLowerCase_idem]
      · by_cases hb : k.is_case_sensitive <;>
          simp [shortAnswerLoop, hk, hb, hc, jsToLowerCase_idem, hrest]

/-! Unfolding lemmas that expose the scorers and the dispatcher without
let-bindings, for use in the proofs below. -/

theorem gradeMultipleChoice_eq (a : Answer) (q : Question) :
    gradeMultipleChoice a q =
      match (q.options.getD []).find? (fun opt => opt.is_correct) with
      | some copt =>
        if (a.selected_options.getD []).head? = some copt.id then pointsOrOne q else 0
      | none => 0 := rfl

theorem calculatePoints_some (a : Answer) (q : Question) (hq : a.question = some q) :
    calculatePoints a =
      if q.question_type = "multiple_choice" then some (gradeMultipleChoice a q)
      else if q.question_type = "multiple_select" then some (gradeMultipleSelect a q)
      else if q.question_type = "matching" then some (gradeMatching a q)
      else if q.question_type = "short_answer" then gradeShortAnswer a q
      else some 0 := by
  unfold calculatePoints
  rw [hq]

theorem calculatePoints_none (a : Answer) (hq : a.question = none) :
    calculatePoints a = some 0 := by
  unfold calculatePoints
  rw [hq]

/-! Counting helpers for `gradeMatching` and `gradeMultipleSelect`. -/

theorem matching_foldl_eq_countP (sm : List (String × String)) (pairs : List MatchingPair) (n : ℕ) :
    pairs.foldl
      (fun acc pair => if sm.lookup pair.left_item = some pair.right_item then acc + 1 else acc) n
    = n + pairs.countP (fun pair => decide (sm.lookup pair.left_item = some pair.right_item)) := by
  induction pairs generalizing n with
  | nil => simp
  | cons pr rest ih =>
    simp only [List.foldl_cons, List.countP_cons]
    by_cases h : sm.lookup pr.left_item = some pr.right_item
    · rw [if_pos h, ih]
      simp [h]
      omega
    · rw [if_neg h, ih]
      simp [h]

theorem length_filter_contains_le (sel C : List String) (h : sel.Nodup) :
    (sel.filter (fun id => C.contains id)).length ≤ C.length := by
  calc (sel.filter (fun id => C.contains id)).length
      = (sel.filter (fun id => C.contains id)).toFinset.card :=
        (List.toFinset_card_of_nodup (h.filter _)).symm
    _ ≤ C.toFinset.card := by
        apply Finset.card_le_card
        intro x hx
        simp only [List.mem_toFinset, List.mem_filter] at hx
        simp only [List.mem_toFinset]
        exact List.elem_iff.mp hx.2
    _ ≤ C.length := C.toFinset_card_le

theorem length_filter_contains_eq_card (S C : List String) (hS : S.Nodup) :
    (S.filter (fun id => C.contains id)).length = (S.toFinset ∩ C.toFinset).card := by
  rw [← List.toFinset_card_of_nodup (hS.filter _)]
  congr 1
  ext x
  simp only [List.mem_toFinset, List.mem_filter, Finset.mem_inter, List.elem_eq_mem,
    decide_eq_true_eq]

/-! Each non-essay scorer returns a fraction in `[0, 1]` of `pointsOrOne`. -/

theorem gradeMultipleChoice_cases (a : Answer) (q : Question) :
    gradeMultipleChoice a q = 0 ∨ gradeMultipleChoice a q = pointsOrOne q := by
  unfold gradeMultipleChoice
  cases hf : (q.options.getD []).find? (fun opt => opt.is_correct) with
  | none => exact Or.inl rfl
  | some copt =>
    by_cases hs : (a.selected_options.getD []).head? = some copt.id
    · exact Or.inr (by simp [hs])
    · exact Or.inl (by simp [hs])

theorem gradeMultipleSelect_exists_frac (a : Answer) (q : Question)
    (h : (a.selected_options.getD []).Nodup) :
    ∃ s : ℚ, 0 ≤ s ∧ s ≤ 1 ∧ gradeMultipleSelect a q = s * pointsOrOne q := by
  unfold gradeMultipleSelect
  by_cases h0 : ((q.options.getD []).filter (fun opt => opt.is_correct)).length = 0
  · exact ⟨0, le_refl 0, by norm_num, by simp [h0]⟩
  · simp only [h0, if_false]
    set sel := a.selected_options.getD [] with hsel
    set correctIds := ((q.options.getD []).filter (fun opt => opt.is_correct)).map
      (fun opt => opt.id) with hC
    set cs := (sel.filter (fun id => correctIds.contains id)).length with hcs
    have hn : correctIds.length = ((q.options.getD []).filter (fun opt => opt.is_correct)).length :=
      List.length_map _ _
    have hnpos : 0 < correctIds.length := by omega
    have hnQ : (0 : ℚ) < (correctIds.length : ℚ) := by exact_mod_cast hnpos
    refine ⟨max 0 (((cs : ℚ) - ((sel.length - cs : ℕ) : ℚ)) / (correctIds.length : ℚ)),
      le_max_left _ _, ?_, rfl⟩
    apply max_le (by norm_num)
    rw [div_le_one hnQ]
    have hcsle : cs ≤ correctIds.length := length_filter_contains_le sel correctIds h
    have h1 : ((cs : ℚ) - ((sel.length - cs : ℕ) : ℚ)) ≤ (cs : ℚ) := by
      have : (0 : ℚ) ≤ ((sel.length - cs : ℕ) : ℚ) := Nat.cast_nonneg _
      linarith
    have h2 : (cs : ℚ) ≤ (correctIds.length : ℚ) := by exact_mod_cast hcsle
    linarith

theorem gradeMatching_exists_frac (a : Answer) (q : Question) :
    ∃ s : ℚ, 0 ≤ s ∧ s ≤ 1 ∧ gradeMatching a q = s * pointsOrOne q := by
  unfold gradeMatching
  by_cases h0 : (q.matching_pairs.getD []).length = 0
  · exact ⟨0, le_refl 0, by norm_num, by simp [h0]⟩
  · simp only [h0, if_false]
    set sm := a.matching_answers.getD [] with hsm
    set pairs := q.matching_pairs.getD [] with hpairs
    rw [matching_foldl_eq_countP sm pairs 0]
    set c := pairs.countP (fun pair => decide (sm.lookup pair.left_item = some pair.right_item))
      with hc
    have hnpos : 0 < pairs.length := Nat.pos_of_ne_zero h0
    have hnQ : (0 : ℚ) < (pairs.length : ℚ) := by exact_mod_cast hnpos
    refine ⟨((0 + c : ℕ) : ℚ) / (pairs.length : ℚ), ?_, ?_, rfl⟩
    · exact div_nonneg (Nat.cast_nonneg _) (le_of_lt hnQ)
    · rw [div_le_one hnQ]
      have : c ≤ pairs.length := List.countP_le_length _
      exact_mod_cast by omega

theorem shortAnswerLoop_result_cases (s : String) (q : Question) (keys : List ShortAnswerKey)
    (r : ℚ) (h : shortAnswerLoop s q keys = some r) : r = 0 ∨ r = pointsOrOne q := by
  rw [shortAnswerLoop_eq_loopTexts] at h
  exact loopTexts_cases _ _ _ _ h

/-! Claim theorems. -/

/-- C8: a multiple_select question with zero options flagged is_correct, and a
matching question with zero stored pairs, are scored without throwing (the
scorers are total functions into ℚ) and always yield exactly 0. -/
theorem zero_denominator_safety :
    (∀ (a : Answer) (q : Question),
      (q.options.getD []).filter (fun opt => opt.is_correct) = [] →
      gradeMultipleSelect a q = 0) ∧
    (∀ (a : Answer) (q : Question),
      q.matching_pairs.getD [] = [] → gradeMatching a q = 0) := by
  constructor
  · intro a q h
    unfold gradeMultipleSelect
    simp [h]
  · intro a q h
    unfold gradeMatching
    simp [h]

/-- Witness for C8 at concrete inputs: a multiple_select question whose only
option is not correct, and a matching question with an empty pair list, both
score 0 even with non-empty student answers. -/
theorem zero_denominator_safety_witness :
    gradeMultipleSelect ⟨none, some ["A"], none, none⟩
      ⟨"multiple_select", some 4, some [⟨"A", false⟩], none, none⟩ = 0 ∧
    gradeMatching ⟨none, none, some [("L", "R")], none⟩
      ⟨"matching", some 4, none, some [], none⟩ = 0 :=
  ⟨zero_denominator_safety.1 _ _ (by decide), zero_denominator_safety.2 _ _ (by decide)⟩

/-- C2 counterexample: for the key Paris with is_case_sensitive = true, the
student answer paris scores FULL points (here 2), not 0 as the claim states:
the source lower-cases the key text before the case-sensitivity branch. -/
theorem shortAnswer_case_sensitive_paris_cex :
    gradeShortAnswer ⟨none, none, none, some ("paris")⟩
      ⟨"short_answer", some 2, none, none, some [⟨some ("Paris"), true⟩]⟩ = some 2 ∧
    (2 : ℚ) ≠ 0 := by
  constructor
  · decide
  · norm_num

/-- C2 amended: the scorer trims and lower-cases the student text and, in BOTH
branches of is_case_sensitive, compares it against the lower-cased key text;
the flag therefore never changes the comparison, and the answer scores full
points exactly when the normalized student text equals the lower-cased text of
some key (assuming every key carries a text, else the code throws). -/
theorem gradeShortAnswer_lowercases_both_sides (a : Answer) (q : Question)
    (h : ∀ k ∈ q.short_answer_keys.getD [], k.correct_answer ≠ none) :
    gradeShortAnswer a q =
      some (if (q.short_answer_keys.getD []).any
          (fun k => decide (jsToLowerCase (jsTrim (a.answer_text.getD (""))) =
            jsToLowerCase (k.correct_answer.getD ("")))) then pointsOrOne q else 0) := by
  unfold gradeShortAnswer
  exact shortAnswerLoop_all_some _ _ _ h

/-- Witness for C2 amended: the key Paris with is_case_sensitive = true
awards full points (2) to the student answer paris. -/
theorem gradeShortAnswer_lowercases_both_sides_witness :
    gradeShortAnswer ⟨none, none, none, some ("paris")⟩
      ⟨"short_answer", some 2, none, none, some [⟨some ("Paris"), true⟩]⟩ =
      some (if ([⟨some ("Paris"), true⟩] : List ShortAnswerKey).any
          (fun k => decide (jsToLowerCase (jsTrim ("paris")) =
            jsToLowerCase (k.correct_answer.getD ("")))) then
          pointsOrOne ⟨"short_answer", some 2, none, none, some [⟨some ("Paris"), true⟩]⟩ else 0) :=
  gradeShortAnswer_lowercases_both_sides _ _ (by decide)

/-- C9: the result of gradeShortAnswer is unchanged under any reassignment of
the is_case_sensitive flags: any two key lists with the same stored texts give
the same score. In particular flipping any flag never changes the score. -/
theorem gradeShortAnswer_flag_irrelevant (a : Answer) (q : Question)
    (keys2 : List ShortAnswerKey)
    (h : (q.short_answer_keys.getD []).map (fun k => k.correct_answer) =
      keys2.map (fun k => k.correct_answer)) :
    gradeShortAnswer a q = gradeShortAnswer a { q with short_answer_keys := some keys2 } := by
  unfold gradeShortAnswer
  rw [shortAnswerLoop_eq_loopTexts, shortAnswerLoop_eq_loopTexts]
  show loopTexts _ (pointsOrOne q) _ = loopTexts _ (pointsOrOne q) (keys2.map _)
  rw [h]

/-- Witness for C9: flipping the flag of the single key Paris from true to
false leaves the computed score unchanged. -/
theorem gradeShortAnswer_flag_irrelevant_witness :
    gradeShortAnswer ⟨none, none, none, some ("Paris")⟩
      ⟨"short_answer", some 2, none, none, some [⟨some ("Paris"), true⟩]⟩ =
    gradeShortAnswer ⟨none, none, none, some ("Paris")⟩
      { question_type := "short_answer", points := some 2, options := none,
        matching_pairs := none, short_answer_keys := some [⟨some ("Paris"), false⟩] } :=
  gradeShortAnswer_flag_irrelevant _ _ [⟨some ("Paris"), false⟩] (by decide)

/-- C3 counterexample: with TWO options selected (A and C) and A the
correct option, the scorer awards full points (4), not 0 as the claim states:
the source inspects only the first element of selected_options. -/
theorem multipleChoice_multiple_selected_cex :
    gradeMultipleChoice ⟨none, some ["A", "C"], none, none⟩
      ⟨"multiple_choice", some 4, some [⟨"A", true⟩, ⟨"C", false⟩], none, none⟩ = 4 ∧
    (["A", "C"] : List String).length = 2 ∧ (4 : ℚ) ≠ 0 := by
  refine ⟨by decide, rfl, by norm_num⟩

/-- C3 amended: the scorer awards full points exactly when the FIRST selected
option id equals the id of the FIRST option with is_correct = true; it awards
0 in every other case (zero options selected, first selected option not the
first correct one, or no correct option); selected options after the first are
ignored rather than voiding the answer. -/
theorem gradeMultipleChoice_first_selected (a : Answer) (q : Question) (p : Int)
    (hp : q.points = some p) (hp0 : p ≠ 0) :
    (gradeMultipleChoice a q = 0 ∨ gradeMultipleChoice a q = (p : ℚ)) ∧
    (gradeMultipleChoice a q = (p : ℚ) ↔
      ∃ copt, (q.options.getD []).find? (fun opt => opt.is_correct) = some copt ∧
        (a.selected_options.getD []).head? = some copt.id) := by
  have hP : pointsOrOne q = (p : ℚ) := pointsOrOne_eq_points q p hp hp0
  have hpQ : (p : ℚ) ≠ 0 := Int.cast_ne_zero.mpr hp0
  constructor
  · rcases gradeMultipleChoice_cases a q with h | h
    · exact Or.inl h
    · exact Or.inr (h.trans hP)
  · constructor
    · intro h
      rw [gradeMultipleChoice_eq] at h
      cases hf : (q.options.getD []).find? (fun opt => opt.is_correct) with
      | none => simp only [hf] at h; exact absurd h.symm hpQ
      | some copt =>
        simp only [hf] at h
        by_cases hs : (a.selected_options.getD []).head? = some copt.id
        · exact ⟨copt, rfl, hs⟩
        · rw [if_neg hs] at h
          exact absurd h.symm hpQ
    · rintro ⟨copt, hf, hs⟩
      rw [gradeMultipleChoice_eq]
      simp only [hf]
      rw [if_pos hs, hP]

/-- Witness for C3 amended: first selected option A matches the first
correct option, so the answer ["A", "C"] is awarded the full 4 points. -/
theorem gradeMultipleChoice_first_selected_witness :
    gradeMultipleChoice ⟨none, some ["A", "C"], none, none⟩
      ⟨"multiple_choice", some 4, some [⟨"A", true⟩, ⟨"C", false⟩], none, none⟩ =
      ((4 : Int) : ℚ) :=
  (gradeMultipleChoice_first_selected _ _ 4 rfl (by norm_num)).2.mpr
    ⟨⟨"A", true⟩, by decide, rfl⟩

/-- C1: for a question conforming to the data model (points a positive
integer, selected option ids a set) and any answer, the computed score is
never negative and never exceeds the maximum points of the question; this
holds for every question type the dispatcher scores numerically (essay is
excluded by hypothesis, matching the claim). -/
theorem calculatePoints_score_bounds (a : Answer) (q : Question) (p : Int) (r : ℚ)
    (hq : a.question = some q) (_hty : q.question_type ≠ "essay")
    (hp : q.points = some p) (hp1 : 1 ≤ p)
    (hnd : (a.selected_options.getD []).Nodup)
    (hr : calculatePoints a = some r) :
    0 ≤ r ∧ r ≤ (p : ℚ) := by
  have hp0 : p ≠ 0 := by omega
  have hP : pointsOrOne q = (p : ℚ) := pointsOrOne_eq_points q p hp hp0
  have hp1Q : (1 : ℚ) ≤ (p : ℚ) := by exact_mod_cast hp1
  have hppos : (0 : ℚ) ≤ (p : ℚ) := by linarith
  have frac_bounds : ∀ s : ℚ, 0 ≤ s → s ≤ 1 → 0 ≤ s * pointsOrOne q ∧
      s * pointsOrOne q ≤ (p : ℚ) := by
    intro s hs0 hs1
    rw [hP]
    constructor
    · exact mul_nonneg hs0 hppos
    · calc s * (p : ℚ) ≤ 1 * (p : ℚ) := mul_le_mul_of_nonneg_right hs1 hppos
        _ = (p : ℚ) := one_mul _
  rw [calculatePoints_some a q hq] at hr
  by_cases h1 : q.question_type = "multiple_choice"
  · rw [if_pos h1, Option.some_inj] at hr
    rcases gradeMultipleChoice_cases a q with h | h <;> rw [h] at hr <;> subst hr
    · exact ⟨le_refl 0, hppos⟩
    · rw [hP]
      exact ⟨hppos, le_refl _⟩
  rw [if_neg h1] at hr
  by_cases h2 : q.question_type = "multiple_select"
  · rw [if_pos h2, Option.some_inj] at hr
    rcases gradeMultipleSelect_exists_frac a q hnd with ⟨s, hs0, hs1, hg⟩
    rw [hg] at hr
    subst hr
    exact frac_bounds s hs0 hs1
  rw [if_neg h2] at hr
  by_cases h3 : q.question_type = "matching"
  · rw [if_pos h3, Option.some_inj] at hr
    rcases gradeMatching_exists_frac a q with ⟨s, hs0, hs1, hg⟩
    rw [hg] at hr
    subst hr
    exact frac_bounds s hs0 hs1
  rw [if_neg h3] at hr
  by_cases h4 : q.question_type = "short_answer"
  · rw [if_pos h4] at hr
    unfold gradeShortAnswer at hr
    rcases shortAnswerLoop_result_cases _ _ _ _ hr with h | h <;> subst h
    · exact ⟨le_refl 0, hppos⟩
    · rw [hP]
      exact ⟨hppos, le_refl _⟩
  · rw [if_neg h4, Option.some_inj] at hr
    subst hr
    exact ⟨le_refl 0, hppos⟩

/-- Witness for C1: a correctly answered multiple_choice question worth 5
points scores exactly 5, inside the bounds. -/
theorem calculatePoints_score_bounds_witness :
    0 ≤ (5 : ℚ) ∧ (5 : ℚ) ≤ ((5 : Int) : ℚ) :=
  calculatePoints_score_bounds
    ⟨some ⟨"multiple_choice", some 5, some [⟨"A", true⟩], none, none⟩, some ["A"], none, none⟩
    ⟨"multiple_choice", some 5, some [⟨"A", true⟩], none, none⟩ 5 5
    rfl (by decide) rfl (by decide) (by decide) (by decide)

/-- C4: for a multiple_select question with a non-empty set C of correct
option ids, positive stored points p, and a duplicate-free selection S, the
score is exactly max(0, (|C ∩ S| - (|S| - |C ∩ S|)) / |C|) * p: each incorrect
selection cancels one correct selection, floored at zero. -/
theorem gradeMultipleSelect_partial_credit_formula (a : Answer) (q : Question) (p : Int)
    (S C : List String)
    (hS : a.selected_options = some S) (hSnd : S.Nodup)
    (hC : C = ((q.options.getD []).filter (fun opt => opt.is_correct)).map (fun opt => opt.id))
    (hCnd : C.Nodup) (hCne : C ≠ [])
    (hp : q.points = some p) (hp0 : p ≠ 0) :
    gradeMultipleSelect a q =
      max 0 ((((S.toFinset ∩ C.toFinset).card : ℚ) -
          ((S.toFinset.card : ℚ) - ((S.toFinset ∩ C.toFinset).card : ℚ)))
        / (C.toFinset.card : ℚ)) * (p : ℚ) := by
  have hP : pointsOrOne q = (p : ℚ) := pointsOrOne_eq_points q p hp hp0
  have hlenC : C.length = ((q.options.getD []).filter (fun opt => opt.is_correct)).length := by
    rw [hC, List.length_map]
  have hne : ((q.options.getD []).filter (fun opt => opt.is_correct)).length ≠ 0 := by
    intro h0
    exact hCne (List.length_eq_zero.mp (hlenC.trans h0))
  unfold gradeMultipleSelect
  rw [if_neg hne, hS, Option.getD_some, ← hC, hP]
  dsimp only
  have hcs : (S.filter (fun id => C.contains id)).length = (S.toFinset ∩ C.toFinset).card :=
    length_filter_contains_eq_card S C hSnd
  have hcsle : (S.filter (fun id => C.contains id)).length ≤ S.length :=
    List.length_filter_le _ _
  have hSlen : S.length = S.toFinset.card := (List.toFinset_card_of_nodup hSnd).symm
  have hClen : C.length = C.toFinset.card := (List.toFinset_card_of_nodup hCnd).symm
  have hsub : ((S.length - (S.filter (fun id => C.contains id)).length : ℕ) : ℚ)
      = (S.length : ℚ) - ((S.filter (fun id => C.contains id)).length : ℚ) :=
    Nat.cast_sub hcsle
  rw [hsub, hcs, hSlen, hClen]

/-- Witness for C4: with points 4 and correct options {A, B} among four
options, selecting exactly {A} scores 2 points. -/
theorem gradeMultipleSelect_partial_credit_formula_witness :
    gradeMultipleSelect ⟨none, some ["A"], none, none⟩
      ⟨"multiple_select", some 4,
        some [⟨"A", true⟩, ⟨"B", true⟩, ⟨"C", false⟩, ⟨"D", false⟩], none, none⟩ = 2 := by
  rw [gradeMultipleSelect_partial_credit_formula _ _ 4 ["A"] ["A", "B"]
    rfl (by decide) (by decide) (by decide) (by decide) rfl (by decide)]
  have h1 : ((["A"] : List String).toFinset ∩ (["A", "B"] : List String).toFinset).card = 1 := by
    decide
  have h2 : (["A"] : List String).toFinset.card = 1 := by decide
  have h3 : (["A", "B"] : List String).toFinset.card = 2 := by decide
  rw [h1, h2, h3]
  norm_num [max_def]

/-- C5: for a matching question with m > 0 stored pairs and positive points p,
the score is (correctCount / m) * p where correctCount counts the pairs whose
left item the student maps to exactly the right item; and prepending a student
mapping whose key is not a left item of any stored pair never changes the
score. -/
theorem gradeMatching_fraction_formula :
    (∀ (a : Answer) (q : Question) (p : Int) (pairs : List MatchingPair),
      q.matching_pairs = some pairs → pairs ≠ [] → q.points = some p → p ≠ 0 →
      gradeMatching a q =
        ((pairs.countP (fun pair =>
            decide ((a.matching_answers.getD []).lookup pair.left_item
              = some pair.right_item)) : ℚ)
          / (pairs.length : ℚ)) * (p : ℚ)) ∧
    (∀ (a : Answer) (q : Question) (k v : String),
      k ∉ (q.matching_pairs.getD []).map (fun pair => pair.left_item) →
      gradeMatching { a with matching_answers := some ((k, v) :: a.matching_answers.getD []) } q
        = gradeMatching a q) := by
  constructor
  · intro a q p pairs hpairs hne hp hp0
    have hlen : pairs.length ≠ 0 := fun h0 => hne (List.length_eq_zero.mp h0)
    unfold gradeMatching
    rw [hpairs, Option.getD_some, if_neg hlen, matching_foldl_eq_countP, Nat.zero_add,
      pointsOrOne_eq_points q p hp hp0]
  · intro a q k v hk
    unfold gradeMatching
    dsimp only
    by_cases h0 : (q.matching_pairs.getD []).length = 0
    · rw [if_pos h0, if_pos h0]
    · rw [if_neg h0, if_neg h0, matching_foldl_eq_countP, matching_foldl_eq_countP]
      simp only [Option.getD_some]
      have hlemma : ∀ pair ∈ q.matching_pairs.getD [],
          ((k, v) :: a.matching_answers.getD []).lookup pair.left_item
            = (a.matching_answers.getD []).lookup pair.left_item := by
        intro pair hpair
        have hne : pair.left_item ≠ k := fun he => hk (List.mem_map.mpr ⟨pair, hpair, he⟩)
        have hbeq : (pair.left_item == k) = false := by simpa using hne
        rw [List.lookup_cons, hbeq]
      have hcong := List.countP_congr (l := q.matching_pairs.getD [])
        (p := fun pair => decide (((k, v) :: a.matching_answers.getD []).lookup pair.left_item
          = some pair.right_item))
        (q := fun pair => decide ((a.matching_answers.getD []).lookup pair.left_item
          = some pair.right_item))
        (fun pair hpair => by simp only [hlemma pair hpair])
      rw [hcong]

/-- Witness for C5: two stored pairs, one matched correctly, points 4: the
score is (1 / 2) * 4 = 2; an extraneous mapping key X does not change it. -/
theorem gradeMatching_fraction_formula_witness :
    gradeMatching ⟨none, none, some [("L1", "R1"), ("L2", "WRONG")], none⟩
      ⟨"matching", some 4, none, some [⟨"L1", "R1"⟩, ⟨"L2", "R2"⟩], none⟩ = 2 ∧
    gradeMatching ⟨none, none, some [("X", "Y"), ("L1", "R1"), ("L2", "WRONG")], none⟩
      ⟨"matching", some 4, none, some [⟨"L1", "R1"⟩, ⟨"L2", "R2"⟩], none⟩ =
      gradeMatching ⟨none, none, some [("L1", "R1"), ("L2", "WRONG")], none⟩
        ⟨"matching", some 4, none, some [⟨"L1", "R1"⟩, ⟨"L2", "R2"⟩], none⟩ := by
  constructor
  · rw [gradeMatching_fraction_formula.1 _ _ 4 [⟨"L1", "R1"⟩, ⟨"L2", "R2"⟩]
      rfl (by decide) rfl (by decide)]
    show ((1 : ℕ) : ℚ) / ((2 : ℕ) : ℚ) * ((4 : Int) : ℚ) = 2
    norm_num
  · have h := gradeMatching_fraction_formula.2
      ⟨none, none, some [("L1", "R1"), ("L2", "WRONG")], none⟩
      ⟨"matching", some 4, none, some [⟨"L1", "R1"⟩, ⟨"L2", "R2"⟩], none⟩ "X" "Y" (by decide)
    exact h

/-- C6 (divergence evidence): grading an essay answer row, the source
produces a record with `points_awarded = 0` and `is_auto_graded = true` and
no status field of any kind — the `GradedAnswer` shape carries none — so no
"pending_manual" status is surfaced and a numeric zero IS assigned, contrary
to the claim. -/
theorem gradeSession_essay_scored_zero_auto :
    gradeSession [⟨some ⟨"essay", some 10, none, none, none⟩, none, none, some ("My essay")⟩] =
      some [⟨⟨some ⟨"essay", some 10, none, none, none⟩, none, none, some ("My essay")⟩,
        true, 0⟩] := by
  decide

/-- C7 counterexample: a short_answer question whose single answer key lacks
its text (correct_answer null) makes the grader THROW (modelled as `none`,
the TypeError on reading toLowerCase of null), not degrade to a zero score as
the claim states. -/
theorem calculatePoints_null_key_throws_cex :
    calculatePoints ⟨some ⟨"short_answer", some 3, none, none, some [⟨none, false⟩]⟩,
      none, none, some ("x")⟩ = none := by
  decide

/-- C7 amended: a missing question reference returns 0 without throwing, and
grading never throws PROVIDED every short-answer key carries its text; a key
with null correct_answer is the one failure path that raises instead of
degrading to zero. -/
theorem calculatePoints_no_throw_amended :
    (∀ a : Answer, a.question = none → calculatePoints a = some 0) ∧
    (∀ (a : Answer) (q : Question), a.question = some q →
      (∀ k ∈ q.short_answer_keys.getD [], k.correct_answer ≠ none) →
      (calculatePoints a).isSome) := by
  constructor
  · intro a h
    exact calculatePoints_none a h
  · intro a q hq hk
    rw [calculatePoints_some a q hq]
    by_cases h1 : q.question_type = "multiple_choice"
    · rw [if_pos h1]; rfl
    rw [if_neg h1]
    by_cases h2 : q.question_type = "multiple_select"
    · rw [if_pos h2]; rfl
    rw [if_neg h2]
    by_cases h3 : q.question_type = "matching"
    · rw [if_pos h3]; rfl
    rw [if_neg h3]
    by_cases h4 : q.question_type = "short_answer"
    · rw [if_pos h4]
      unfold gradeShortAnswer
      rw [shortAnswerLoop_eq_loopTexts]
      apply loopTexts_isSome
      intro o ho
      rcases List.mem_map.mp ho with ⟨k, hkm, rfl⟩
      exact hk k hkm
    · rw [if_neg h4]; rfl

/-- Witness for C7 amended: an answer row with no question reference grades
to 0 without an exception. -/
theorem calculatePoints_no_throw_amended_witness :
    calculatePoints ⟨none, none, none, none⟩ = some 0 :=
  calculatePoints_no_throw_amended.1 ⟨none, none, none, none⟩ rfl

/-- C10: when the points field of a question is null/absent or 0 (the falsy
values), every type-specific scorer substitutes 1 as the maximum score, so a
fully correct answer is awarded exactly 1 point rather than 0. -/
theorem falsy_points_defaults_to_one (q : Question)
    (hq : q.points = none ∨ q.points = some 0) :
    (∀ (a : Answer) (copt : QuestionOption),
      (q.options.getD []).find? (fun opt => opt.is_correct) = some copt →
      (a.selected_options.getD []).head? = some copt.id →
      gradeMultipleChoice a q = 1) ∧
    (∀ a : Answer,
      a.selected_options = some (((q.options.getD []).filter
        (fun opt => opt.is_correct)).map (fun opt => opt.id)) →
      (q.options.getD []).filter (fun opt => opt.is_correct) ≠ [] →
      gradeMultipleSelect a q = 1) ∧
    (∀ a : Answer, q.matching_pairs.getD [] ≠ [] →
      (∀ pair ∈ q.matching_pairs.getD [],
        (a.matching_answers.getD []).lookup pair.left_item = some pair.right_item) →
      gradeMatching a q = 1) ∧
    (∀ (a : Answer) (t : String) (b : Bool) (rest : List ShortAnswerKey),
      q.short_answer_keys.getD [] = ⟨some t, b⟩ :: rest →
      jsToLowerCase (jsTrim (a.answer_text.getD (""))) = jsToLowerCase t →
      gradeShortAnswer a q = some 1) := by
  have hP : pointsOrOne q = 1 := pointsOrOne_eq_one q hq
  refine ⟨?_, ?_, ?_, ?_⟩
  · intro a copt hf hs
    rw [gradeMultipleChoice_eq]
    simp only [hf]
    rw [if_pos hs, hP]
  · intro a hsel hne
    have hlen : ((q.options.getD []).filter (fun opt => opt.is_correct)).length ≠ 0 :=
      fun h0 => hne (List.length_eq_zero.mp h0)
    unfold gradeMultipleSelect
    rw [if_neg hlen, hsel, Option.getD_some, hP]
    dsimp only
    set C := ((q.options.getD []).filter (fun opt => opt.is_correct)).map (fun opt => opt.id)
      with hC
    have hfull : C.filter (fun id => C.contains id) = C :=
      List.filter_eq_self.mpr (fun x hx => by simpa using hx)
    rw [hfull]
    have hCne : C.length ≠ 0 := by
      rw [hC, List.length_map]
      exact hlen
    have hCQ : (C.length : ℚ) ≠ 0 := Nat.cast_ne_zero.mpr hCne
    rw [Nat.sub_self, Nat.cast_zero, sub_zero, div_self hCQ]
    norm_num
  · intro a hne hall
    have hlen : (q.matching_pairs.getD []).length ≠ 0 :=
      fun h0 => hne (List.length_eq_zero.mp h0)
    unfold gradeMatching
    rw [if_neg hlen, matching_foldl_eq_countP, Nat.zero_add, hP]
    have hcount : (q.matching_pairs.getD []).countP
        (fun pair => decide ((a.matching_answers.getD []).lookup pair.left_item
          = some pair.right_item)) = (q.matching_pairs.getD []).length := by
      apply List.countP_eq_length.mpr
      intro pair hpair
      simpa using hall pair hpair
    rw [hcount]
    dsimp only
    have hQ : (((q.matching_pairs.getD []).length : ℕ) : ℚ) ≠ 0 := Nat.cast_ne_zero.mpr hlen
    rw [div_self hQ]
    norm_num
  · intro a t b rest hkeys hmatch
    unfold gradeShortAnswer
    rw [hkeys]
    cases b <;> simp [shortAnswerLoop, hmatch, jsToLowerCase_idem, hP]

/-- Witness for C10: a multiple_choice question with points = null and a
correct selection scores exactly 1. -/
theorem falsy_points_defaults_to_one_witness :
    gradeMultipleChoice ⟨none, some ["A"], none, none⟩
      ⟨"multiple_choice", none, some [⟨"A", true⟩], none, none⟩ = 1 :=
  (falsy_points_defaults_to_one ⟨"multiple_choice", none, some [⟨"A", true⟩], none, none⟩
    (Or.inl rfl)).1 ⟨none, some ["A"], none, none⟩ ⟨"A", true⟩ (by decide) rfl

end CBT
